import Mathlib

/-!
# srp-go: upload ingestion, access gate and error mapping

A shallow embedding of `api.go`, `errors.go` and the session lookup of
`database.go`.  Handlers are state transformers over `Sys`, which holds the
request context (`ctx`), the package-level variables the handlers touch and
the outside world (durable store, log, standard output).  Go strings are
Lean strings; a Go `error` is represented by the text of its `Error()`
method, which is the only thing the handlers read from it.
-/

namespace Srp

/-! ## Go standard library -/

/-- The Go function `strings.HasSuffix`: `s` is at least as long as `suffix` and
its tail of that length equals `suffix`. -/
def HasSuffix (s suffix : String) : Bool :=
  decide (suffix.length ≤ s.length) &&
    decide (s.data.drop (s.length - suffix.length) = suffix.data)

/-- The decimal digit `d` (`d < 10`) as a character. -/
def digitChar (d : Nat) : Char := Char.ofNat (48 + d)

/-- The digit loop of `strconv`, base 10: the rendering of `u / 10` followed by
the digit `u % 10`.  The first argument bounds the number of digits. -/
def formatBits : Nat → Nat → List Char
  | 0, _ => []
  | fuel + 1, u =>
    if u < 10 then [digitChar u]
    else formatBits fuel (u / 10) ++ [digitChar (u % 10)]

/-- The Go function `strconv.FormatInt(i, 10)`: a minus sign for a negative
number, then the decimal digits of its magnitude. -/
def FormatInt (i : Int) : String :=
  if i < 0 then ⟨'-' :: formatBits (i.natAbs + 1) i.natAbs⟩
  else ⟨formatBits (i.natAbs + 1) i.natAbs⟩

/-- Value of a digit string, most significant digit first. -/
def digitsValue (cs : List Char) : Nat :=
  cs.foldl (fun acc c => 10 * acc + (c.toNat - 48)) 0

/-- Reads back what `FormatInt` writes. -/
def parseInt (s : String) : Int :=
  match s.data with
  | '-' :: cs => - (digitsValue cs : Int)
  | cs => (digitsValue cs : Int)

/-! ## fasthttp boundary -/

/-- Header and cookie arguments of fasthttp: key/value pairs in order. -/
abbrev Args := List (String × String)

/-- Storing an argument (`setArg`): the first pair with the key gets the value,
a new pair is appended when the key is absent. -/
def Args.setArg : Args → String → String → Args
  | [], k, v => [(k, v)]
  | (k', v') :: rest, k, v =>
    if k' = k then (k, v) :: rest else (k', v') :: Args.setArg rest k v

/-- Carriage return. -/
def rChar : Char := Char.ofNat 13

/-- Line feed. -/
def nChar : Char := Char.ofNat 10

/-- The fasthttp function `removeNewLines`, applied to every header value
before it is stored: each carriage return and each line feed becomes a space. -/
def removeNewLines (raw : String) : String :=
  ⟨raw.data.map (fun c => if c = rChar ∨ c = nChar then ' ' else c)⟩

/-- The method `ctx.Response.Header.Set(key, value)` for a key that is no
special header and is already in canonical form (X-Image-Hash,
X-Server-Message): the value is stored with its line breaks removed. -/
def ResponseHeader.Set (h : Args) (key value : String) : Args :=
  Args.setArg h key (removeNewLines value)

/-- The string holds neither a carriage return nor a line feed. -/
def NoLineBreak (v : String) : Prop := rChar ∉ v.data ∧ nChar ∉ v.data

/-- Value of the first pair with the key, if any. -/
def Args.lookup : Args → String → Option String
  | [], _ => none
  | (k', v') :: rest, k => if k' = k then some v' else Args.lookup rest k

/-- Peeking an argument: the value, or the empty byte string when the key is
absent. -/
def Args.Peek (a : Args) (k : String) : String := (Args.lookup a k).getD ""

/-- A file part of a multipart form (`multipart.FileHeader`). -/
structure FileHeader where
  Filename : String
  Size : Int
deriving DecidableEq, Repr

/-- The request half of `fasthttp.RequestCtx`.  `method` is what `ctx.Method()`
returns, `multipartForm` what `ctx.MultipartForm()` returns (the file parts by
field name, or the parse error). -/
structure Request where
  method : String
  path : String
  header : Args
  cookies : Args
  remoteIP : String
  multipartForm : Except String (List (String × FileHeader))

/-- The response half of `fasthttp.RequestCtx`. -/
structure Response where
  statusCode : Nat
  header : Args
  body : String
deriving DecidableEq, Repr

def StatusCreated : Nat := 201
def StatusUnauthorized : Nat := 401
def StatusForbidden : Nat := 403
def StatusNotFound : Nat := 404
def StatusMethodNotAllowed : Nat := 405
def StatusInternalServerError : Nat := 500

/-- The error `fasthttp.ErrMissingFile`. -/
def ErrMissingFile : String :=
  "there is no uploaded file associated with the given key"

/-- The method `ctx.FormFile(key)`: the first file part under `key`. -/
def FormFile (r : Request) (key : String) : Except String FileHeader :=
  match r.multipartForm with
  | .error e => .error e
  | .ok files =>
    match files.lookup key with
    | some fh => .ok fh
    | none => .error ErrMissingFile

/-- The method `ctx.IsPost()`. -/
def IsPost (r : Request) : Bool := r.method == "POST"

/-! ## database.go -/

structure User where
  Name : String
  ID : Int
  State : String
  Whitelisted : Bool
deriving DecidableEq, Repr

/-- The method `func (u User) String() string`. -/
def User.String (u : User) : String :=
  "User<" ++ u.Name ++ ", " ++ FormatInt u.ID ++ ", " ++ u.State ++ ", " ++
    (if u.Whitelisted then "true" else "false") ++ ">"

/-- The query `db.NewSelect().Model(user).Where("state = ?", state).Scan(ctx)`
over the user table: the first row with that state, or the no-rows error. -/
def selectByState (db : List User) (state : String) : Except String User :=
  match db.find? (fun u => u.State == state) with
  | some u => .ok u
  | none => .error "sql: no rows in result set"

/-! ## Process state -/

/-- Calls into the ingestion pipeline, recorded in the order they are made. -/
inductive Call
  | handleUpload
  | FormFile (key : String)
  | SaveMultipartFile (path : String)
  | SaveFinal (path : String)
  | AppendIfMissing (s : String)
  | LoadGalleryCache
deriving DecidableEq, Repr

/-- The request context together with the package-level variables and the
world the handlers act on.  `σ` is the state of durable storage, `γ` the type
of the gallery snapshot.  `unixNano` is what `time.Now().UnixNano()` reads
while this request is handled. -/
structure Sys (σ γ : Type) where
  req : Request
  resp : Response
  unixNano : Int
  allowUpload : Bool
  imageCache : List String
  galleryCache : γ
  db : List User
  store : σ
  log : List String
  stdout : List String
  calls : List Call

/-- Functions and constants of the program that the three source files use
without defining them, and the storage side of `fasthttp.SaveMultipartFile`.
Errors are `some message` / `Except.error message`. -/
structure Env (σ γ : Type) where
  cookieName : String
  SaveMultipartFile : σ → FileHeader → String → Option String × σ
  SaveFinal : σ → String → Except String String × σ
  galleryView : σ → γ

/-- Modelled from the spec: `AppendIfMissing` is called by `handleUpload` but is
not among the source files.  The spec has the existence cache updated by
"insert the returned ContentIdentifier only if not already present", with
`Add(id)` a "no-op if already present". -/
def AppendIfMissing (slice : List String) (s : String) : List String :=
  if s ∈ slice then slice else slice ++ [s]

/-- Modelled from the spec: `LoadGalleryCache` is called by `handleUpload` but is
not among the source files.  The spec has the gallery rebuilt "from the
authoritative source of truth (not from ExistenceCache)": the snapshot is a
function of durable storage alone, which function is left to `Env`. -/
def LoadGalleryCache {σ γ : Type} (env : Env σ γ) (store : σ) : γ :=
  env.galleryView store

variable {σ γ : Type}

/-- Appends a call to the trace. -/
def Sys.record (s : Sys σ γ) (c : Call) : Sys σ γ :=
  { s with calls := s.calls ++ [c] }

/-- Calls made between two states of one run. -/
def callsSince (before after : Sys σ γ) : List Call :=
  after.calls.drop before.calls.length

/-! ## errors.go -/

def HandleGeneric (s : Sys σ γ) (status : Nat) (message : String) : Sys σ γ :=
  { s with
    resp :=
      { statusCode := status
        header := ResponseHeader.Set s.resp.header "X-Server-Message" message
        body := s.resp.body ++ FormatInt status ++ " " ++ message ++ "\n" } }

def HandleForbidden (s : Sys σ γ) : Sys σ γ :=
  { s with
    resp :=
      { statusCode := StatusForbidden
        header := ResponseHeader.Set s.resp.header "X-Server-Message" "403 Forbidden"
        body := s.resp.body ++ "403 Forbidden\n" }
    log := s.log ++
      ["- Returned 403 to " ++ s.req.remoteIP ++ " - tried to connect with '" ++
        Args.Peek s.req.header "Auth" ++ "' to '" ++ s.req.path ++ "'"] }

def HandleInternalServerError (s : Sys σ γ) (err : String) : Sys σ γ :=
  if HasSuffix err "no such file or directory" then
    HandleGeneric s StatusNotFound "Not Found"
  else
    { s with
      resp :=
        { statusCode := StatusInternalServerError
          header := ResponseHeader.Set s.resp.header "X-Server-Message" ("500 " ++ err)
          body := s.resp.body ++ "500 " ++ err ++ "\n" }
      log := s.log ++
        ["- Returned 500 to " ++ s.req.remoteIP ++ " with error " ++ err] }

/-! ## database.go: session lookup -/

/-- The function `GetUser`: the user with the given state, `none` for Go's `nil`. -/
def GetUser (s : Sys σ γ) (state : String) : Option User × Sys σ γ :=
  let user : User := { Name := "", ID := 0, State := "", Whitelisted := false }
  let s := { s with stdout := s.stdout ++ ["user: " ++ user.String] }
  match selectByState s.db state with
  | .error _ =>
    (none, { s with log := s.log ++
      ["- Failed to find user with 'state' '" ++ state ++ "'"] })
  | .ok u => (some u, s)

def GetUserStatus (env : Env σ γ) (s : Sys σ γ) : (Nat × String) × Sys σ γ :=
  let stateBytes := Args.Peek s.req.cookies env.cookieName
  if stateBytes.length = 0 then
    ((StatusUnauthorized, "Not logged in!"), s)
  else
    match GetUser s stateBytes with
    | (none, s) => ((StatusForbidden, "Invalid Cookie"), s)
    | (some _, s) => ((200, "Logged In"), s)

/-! ## api.go -/

def uploadPath : String := "/api/upload"

/-- The temporary path `handleUpload` stages to: `"www/content/tmp/" + tmpName`
with `tmpName := strconv.FormatInt(time.Now().UnixNano(), 10)`. -/
def stagingPath (unixNano : Int) : String :=
  "www/content/tmp/" ++ FormatInt unixNano

/-- The function `handleUpload`.  The call sites in `api.go` hand
`HandleInternalServerError` a description between `ctx` and `err`; the
definition in `errors.go` has no such parameter and reads `err` only. -/
def handleUpload (env : Env σ γ) (s : Sys σ γ) : Sys σ γ :=
  let s := s.record (Call.FormFile "file")
  let path := stagingPath s.unixNano
  match FormFile s.req "file" with
  | .ok fh =>
    let s := s.record (Call.SaveMultipartFile path)
    match env.SaveMultipartFile s.store fh path with
    | (some err, store) => HandleInternalServerError { s with store := store } err
    | (none, store) =>
      let s := { s with store := store }
      let s := s.record (Call.SaveFinal path)
      match env.SaveFinal s.store path with
      | (.error err, store) => HandleInternalServerError { s with store := store } err
      | (.ok image, store) =>
        let s := { s with store := store }
        let s := { s with
          resp := { s.resp with header := ResponseHeader.Set s.resp.header "X-Image-Hash" image } }
        let s := HandleGeneric s StatusCreated "Created"
        let s := s.record (Call.AppendIfMissing image)
        let s := { s with imageCache := AppendIfMissing s.imageCache image }
        let s := s.record Call.LoadGalleryCache
        { s with galleryCache := LoadGalleryCache env s.store }
  | .error err => HandleInternalServerError s err

def HandleApi (env : Env σ γ) (s : Sys σ γ) : Sys σ γ :=
  if !IsPost s.req then
    HandleGeneric s StatusMethodNotAllowed ("Cannot " ++ s.req.method ++ " on /api/")
  else if s.allowUpload != true then
    HandleForbidden s
  else if s.req.path = uploadPath then
    handleUpload env (s.record Call.handleUpload)
  else
    s

/-! ## Outcomes of an upload attempt -/

/-- Staging fails: `ctx.FormFile` or `fasthttp.SaveMultipartFile` returns an
error. -/
def StagingFails (env : Env σ γ) (s : Sys σ γ) : Prop :=
  (∃ e, FormFile s.req "file" = .error e) ∨
  (∃ fh e st, FormFile s.req "file" = .ok fh ∧
    env.SaveMultipartFile s.store fh (stagingPath s.unixNano) = (some e, st))

/-- Conversion fails: staging went through and `SaveFinal` returns an error. -/
def ConversionFails (env : Env σ γ) (s : Sys σ γ) : Prop :=
  ∃ fh st e st', FormFile s.req "file" = .ok fh ∧
    env.SaveMultipartFile s.store fh (stagingPath s.unixNano) = (none, st) ∧
    env.SaveFinal st (stagingPath s.unixNano) = (.error e, st')

/-- The upload succeeds: staging went through and `SaveFinal` returns the
identifier `h`. -/
def Succeeds (env : Env σ γ) (s : Sys σ γ) (h : String) : Prop :=
  ∃ fh st st', FormFile s.req "file" = .ok fh ∧
    env.SaveMultipartFile s.store fh (stagingPath s.unixNano) = (none, st) ∧
    env.SaveFinal st (stagingPath s.unixNano) = (.ok h, st')

/-- The request carries a valid session cookie: `GetUserStatus` answers 200. -/
abbrev ValidSession (env : Env σ γ) (s : Sys σ γ) : Prop :=
  (GetUserStatus env s).1.1 = 200

/-! ## A concrete environment

Durable storage is a list of (path, content) pairs.  Staging writes the part
under the temporary path, with its file name standing for its bytes;
conversion moves it to `www/content/` under an identifier made from the
content and refuses content that is no image. -/

def demoSaveMultipartFile (store : List (String × String)) (fh : FileHeader)
    (path : String) : Option String × List (String × String) :=
  if fh.Size < 0 then (some "unexpected EOF", store)
  else (none, store ++ [(path, fh.Filename)])

def demoSaveFinal (store : List (String × String)) (path : String) :
    Except String String × List (String × String) :=
  match store.lookup path with
  | none => (.error ("open " ++ path ++ ": no such file or directory"), store)
  | some content =>
    let rest := store.filter (fun p => p.1 != path)
    if content = "notes.txt" then (.error "image: unknown format", rest)
    else if (rest.lookup ("www/content/" ++ content)).isSome then (.ok content, rest)
    else (.ok content, rest ++ [("www/content/" ++ content, content)])

def demoEnv : Env (List (String × String)) (List String) where
  cookieName := "session"
  SaveMultipartFile := demoSaveMultipartFile
  SaveFinal := demoSaveFinal
  galleryView := fun store => store.map Prod.fst

def demoRequest (method path : String) (files : List (String × FileHeader)) : Request where
  method := method
  path := path
  header := []
  cookies := []
  remoteIP := "10.0.0.7"
  multipartForm := .ok files

def demoSys (r : Request) (allow : Bool) (cache : List String) (t : Int) :
    Sys (List (String × String)) (List String) where
  req := r
  resp := { statusCode := 200, header := [], body := "" }
  unixNano := t
  allowUpload := allow
  imageCache := cache
  galleryCache := cache
  db := [{ Name := "ada", ID := 1, State := "tok1", Whitelisted := true }]
  store := []
  log := []
  stdout := []
  calls := []

def catPng : FileHeader := { Filename := "cat.png", Size := 3 }
def notesTxt : FileHeader := { Filename := "notes.txt", Size := 5 }

/-- A POST to /api/upload with the file part `cat.png`. -/
def uploadCat : Request := demoRequest "POST" "/api/upload" [("file", catPng)]

/-- A POST to /api/upload with a part that is no image. -/
def uploadNotes : Request := demoRequest "POST" "/api/upload" [("file", notesTxt)]

/-- A POST to /api/upload whose form has no part named `file`. -/
def uploadNothing : Request := demoRequest "POST" "/api/upload" [("avatar", catPng)]

/-! ## Concrete runs -/

/-- First upload of `cat.png` into an empty cache, clock reading 17. -/
def firstUpload : Sys (List (String × String)) (List String) :=
  demoSys uploadCat true [] 17

/-- The process after `firstUpload` was handled, receiving `cat.png` again on a
fresh context at clock reading 18. -/
def secondUpload : Sys (List (String × String)) (List String) :=
  { handleUpload demoEnv firstUpload with
    req := uploadCat
    resp := { statusCode := 200, header := [], body := "" }
    unixNano := 18 }

/-- An upload with no part named `file`: staging fails. -/
def stagingFailure : Sys (List (String × String)) (List String) :=
  demoSys uploadNothing true ["dog.png"] 21

/-- An upload of a text file: conversion fails. -/
def conversionFailure : Sys (List (String × String)) (List String) :=
  demoSys uploadNotes true ["dog.png"] 22

/-- A POST to /api/upload with uploads enabled and no cookie at all. -/
def anonymousUpload : Sys (List (String × String)) (List String) :=
  demoSys uploadCat true [] 23

/-- The same request while uploads are disabled. -/
def anonymousUploadFlagOff : Sys (List (String × String)) (List String) :=
  demoSys uploadCat false [] 23

/-- A GET on /api/upload. -/
def getRequest : Sys (List (String × String)) (List String) :=
  demoSys (demoRequest "GET" "/api/upload" []) true [] 24

/-- Two different uploads that read the same clock value. -/
def attemptA : Sys (List (String × String)) (List String) :=
  demoSys uploadCat true [] 1700000000000000000

def attemptB : Sys (List (String × String)) (List String) :=
  demoSys uploadNotes true [] 1700000000000000000

/-- The same process and request with other cookies and another user table. -/
def withSession (s : Sys σ γ) (cookies : Args) (db : List User) : Sys σ γ :=
  { s with req := { s.req with cookies := cookies }, db := db }

/-- An environment whose conversion step returns an identifier with a line feed
in it. -/
def lineBreakEnv : Env (List (String × String)) (List String) :=
  { demoEnv with SaveFinal := fun store _ => (.ok "ab\ncd", store) }

/-- A request whose method holds a carriage return. -/
def crMethodRequest : Sys (List (String × String)) (List String) :=
  demoSys (demoRequest "GE\rT" "/api/upload" []) true [] 25

/-! # Theorems -/

/-! ## Lemmas: decimal rendering -/

theorem digitChar_toNat (d : Nat) (h : d < 10) : (digitChar d).toNat - 48 = d := by
  interval_cases d <;> rfl

theorem digitChar_ne_minus (d : Nat) (h : d < 10) : digitChar d ≠ '-' := by
  interval_cases d <;> decide

theorem digitsValue_snoc (cs : List Char) (c : Char) :
    digitsValue (cs ++ [c]) = 10 * digitsValue cs + (c.toNat - 48) := by
  simp [digitsValue, List.foldl_append]

theorem digitsValue_formatBits : ∀ (fuel u : Nat), u < fuel → digitsValue (formatBits fuel u) = u
  | 0, u, h => absurd h (Nat.not_lt_zero u)
  | fuel + 1, u, h => by
    unfold formatBits
    split
    · rename_i hu
      simp [digitsValue, digitChar_toNat u hu]
    · rename_i hu
      have hlt : u / 10 < fuel := by omega
      rw [digitsValue_snoc, digitsValue_formatBits fuel (u / 10) hlt,
        digitChar_toNat (u % 10) (Nat.mod_lt _ (by decide))]
      omega

theorem formatBits_head : ∀ (fuel u : Nat), (formatBits fuel u).head? ≠ some '-'
  | 0, u => by simp [formatBits]
  | fuel + 1, u => by
    unfold formatBits
    split
    · rename_i hu
      simpa using digitChar_ne_minus u hu
    · have ih := formatBits_head fuel (u / 10)
      cases hfb : formatBits fuel (u / 10) with
      | nil => simpa using digitChar_ne_minus (u % 10) (Nat.mod_lt _ (by decide))
      | cons c cs =>
        rw [hfb] at ih
        simpa using ih

theorem parseInt_FormatInt (i : Int) : parseInt (FormatInt i) = i := by
  unfold FormatInt
  split
  · rename_i hi
    simp only [parseInt]
    rw [digitsValue_formatBits _ _ (Nat.lt_succ_self _)]
    omega
  · rename_i hi
    have hh := formatBits_head (i.natAbs + 1) i.natAbs
    unfold parseInt
    split
    · rename_i cs heq
      simp only at heq
      rw [heq] at hh
      simp at hh
    · simp only
      rw [digitsValue_formatBits _ _ (Nat.lt_succ_self _)]
      omega

theorem FormatInt_injective (a b : Int) (h : FormatInt a = FormatInt b) : a = b := by
  have := congrArg parseInt h
  rwa [parseInt_FormatInt, parseInt_FormatInt] at this

theorem stagingPath_injective (a b : Int) (h : stagingPath a = stagingPath b) : a = b := by
  apply FormatInt_injective
  unfold stagingPath at h
  have h2 := congrArg String.data h
  simp only [String.data_append] at h2
  exact String.ext (List.append_cancel_left h2)


/-! ## Lemmas: arguments -/

theorem Args.lookup_setArg_same (a : Args) (k v : String) :
    Args.lookup (Args.setArg a k v) k = some v := by
  induction a with
  | nil => simp [Args.setArg, Args.lookup]
  | cons p rest ih =>
    obtain ⟨k', v'⟩ := p
    by_cases hk : k' = k
    · simp [Args.setArg, Args.lookup, hk]
    · simp [Args.setArg, Args.lookup, hk, ih]

theorem Args.lookup_setArg_other (a : Args) (k v j : String) (hj : k ≠ j) :
    Args.lookup (Args.setArg a k v) j = Args.lookup a j := by
  induction a with
  | nil => simp [Args.setArg, Args.lookup, hj]
  | cons p rest ih =>
    obtain ⟨k', v'⟩ := p
    by_cases hk : k' = k
    · subst hk
      simp [Args.setArg, Args.lookup, hj]
    · by_cases hkj : k' = j
      · subst hkj
        simp [Args.setArg, Args.lookup, hk]
      · simp [Args.setArg, Args.lookup, hk, hkj, ih]

theorem ResponseHeader.lookup_Set_same (a : Args) (k v : String) :
    Args.lookup (ResponseHeader.Set a k v) k = some (removeNewLines v) :=
  Args.lookup_setArg_same a k (removeNewLines v)

theorem ResponseHeader.lookup_Set_other (a : Args) (k v j : String) (hj : k ≠ j) :
    Args.lookup (ResponseHeader.Set a k v) j = Args.lookup a j :=
  Args.lookup_setArg_other a k (removeNewLines v) j hj

/-! ## Lemmas: line breaks in header values -/

theorem map_blank_eq_self_iff (cs : List Char) :
    cs.map (fun c => if c = rChar ∨ c = nChar then ' ' else c) = cs ↔
      rChar ∉ cs ∧ nChar ∉ cs := by
  induction cs with
  | nil => simp
  | cons c cs ih =>
    simp only [List.map_cons, List.cons.injEq, List.mem_cons, not_or, ih]
    by_cases hr : c = rChar
    · subst hr
      simp [show (' ' : Char) ≠ rChar by decide]
    · by_cases hn : c = nChar
      · subst hn
        simp [show (' ' : Char) ≠ nChar by decide]
      · have hr' : ¬ rChar = c := fun h => hr h.symm
        have hn' : ¬ nChar = c := fun h => hn h.symm
        simp [hr, hn, hr', hn']

theorem removeNewLines_eq_self_iff (v : String) : removeNewLines v = v ↔ NoLineBreak v := by
  unfold removeNewLines NoLineBreak
  rw [← map_blank_eq_self_iff]
  constructor
  · intro h
    exact congrArg String.data h
  · intro h
    exact String.ext h

theorem removeNewLines_append (a b : String) :
    removeNewLines (a ++ b) = removeNewLines a ++ removeNewLines b := by
  apply String.ext
  simp [removeNewLines, String.data_append]

theorem NoLineBreak_append (a b : String) :
    NoLineBreak (a ++ b) ↔ NoLineBreak a ∧ NoLineBreak b := by
  unfold NoLineBreak
  simp only [String.data_append, List.mem_append, not_or]
  tauto

theorem some_removeNewLines_eq_iff (v : String) :
    some (removeNewLines v) = some v ↔ NoLineBreak v := by
  rw [Option.some.injEq]
  exact removeNewLines_eq_self_iff v

/-! ## Lemmas: the error handlers leave caches, store and trace alone -/

theorem HandleInternalServerError_imageCache (s : Sys σ γ) (err : String) :
    (HandleInternalServerError s err).imageCache = s.imageCache := by
  unfold HandleInternalServerError HandleGeneric
  split <;> rfl

theorem HandleInternalServerError_galleryCache (s : Sys σ γ) (err : String) :
    (HandleInternalServerError s err).galleryCache = s.galleryCache := by
  unfold HandleInternalServerError HandleGeneric
  split <;> rfl

theorem HandleInternalServerError_calls (s : Sys σ γ) (err : String) :
    (HandleInternalServerError s err).calls = s.calls := by
  unfold HandleInternalServerError HandleGeneric
  split <;> rfl

/-! ## Lemmas: the four ways through `handleUpload` -/

theorem handleUpload_formFile_error (env : Env σ γ) (s : Sys σ γ) (e : String)
    (hf : FormFile s.req "file" = .error e) :
    handleUpload env s =
      HandleInternalServerError (s.record (Call.FormFile "file")) e := by
  simp [handleUpload, Sys.record, hf]

theorem handleUpload_save_error (env : Env σ γ) (s : Sys σ γ) (fh : FileHeader)
    (e : String) (st : σ) (hf : FormFile s.req "file" = .ok fh)
    (hs : env.SaveMultipartFile s.store fh (stagingPath s.unixNano) = (some e, st)) :
    handleUpload env s =
      HandleInternalServerError
        { (s.record (Call.FormFile "file")).record
            (Call.SaveMultipartFile (stagingPath s.unixNano)) with store := st } e := by
  simp [handleUpload, Sys.record, hf, hs]

theorem handleUpload_convert_error (env : Env σ γ) (s : Sys σ γ) (fh : FileHeader)
    (e : String) (st st' : σ) (hf : FormFile s.req "file" = .ok fh)
    (hs : env.SaveMultipartFile s.store fh (stagingPath s.unixNano) = (none, st))
    (hc : env.SaveFinal st (stagingPath s.unixNano) = (.error e, st')) :
    handleUpload env s =
      HandleInternalServerError
        { ((s.record (Call.FormFile "file")).record
            (Call.SaveMultipartFile (stagingPath s.unixNano))).record
            (Call.SaveFinal (stagingPath s.unixNano)) with store := st' } e := by
  simp [handleUpload, Sys.record, hf, hs, hc]

theorem handleUpload_created (env : Env σ γ) (s : Sys σ γ) (fh : FileHeader)
    (h : String) (st st' : σ) (hf : FormFile s.req "file" = .ok fh)
    (hs : env.SaveMultipartFile s.store fh (stagingPath s.unixNano) = (none, st))
    (hc : env.SaveFinal st (stagingPath s.unixNano) = (.ok h, st')) :
    handleUpload env s =
      { s with
        resp :=
          { statusCode := StatusCreated
            header := ResponseHeader.Set (ResponseHeader.Set s.resp.header "X-Image-Hash" h)
              "X-Server-Message" "Created"
            body := s.resp.body ++ FormatInt StatusCreated ++ " " ++ "Created" ++ "\n" }
        store := st'
        imageCache := AppendIfMissing s.imageCache h
        galleryCache := LoadGalleryCache env st'
        calls := s.calls ++ [Call.FormFile "file"] ++
          [Call.SaveMultipartFile (stagingPath s.unixNano)] ++
          [Call.SaveFinal (stagingPath s.unixNano)] ++ [Call.AppendIfMissing h] ++
          [Call.LoadGalleryCache] } := by
  simp [handleUpload, Sys.record, HandleGeneric, hf, hs, hc]

theorem callsSince_append (s t : Sys σ γ) (l : List Call) (h : t.calls = s.calls ++ l) :
    callsSince s t = l := by
  simp [callsSince, h]

theorem AppendIfMissing_mem (slice : List String) (s : String) :
    s ∈ AppendIfMissing slice s := by
  unfold AppendIfMissing
  split
  · assumption
  · simp

theorem AppendIfMissing_of_mem (slice : List String) (s : String) (h : s ∈ slice) :
    AppendIfMissing slice s = slice := by
  simp [AppendIfMissing, h]

theorem HasSuffix_iff (s suffix : String) :
    HasSuffix s suffix = true ↔ ∃ front : String, s = front ++ suffix := by
  unfold HasSuffix
  simp only [Bool.and_eq_true, decide_eq_true_eq, String.length]
  constructor
  · rintro ⟨_, hd⟩
    refine ⟨⟨s.data.take (s.data.length - suffix.data.length)⟩, ?_⟩
    apply String.ext
    have hsplit := List.take_append_drop (s.data.length - suffix.data.length) s.data
    rw [hd] at hsplit
    rw [String.data_append]
    exact hsplit.symm
  · rintro ⟨front, rfl⟩
    simp [String.data_append]

theorem String.length_zero_iff (s : String) : s.length = 0 ↔ s = "" := by
  constructor
  · intro h
    cases s with
    | mk d =>
      have hd : d = [] := List.length_eq_zero.mp h
      subst hd
      rfl
  · rintro rfl
    rfl

/-! ## Lemmas: what `handleUpload` adds to the trace -/

theorem handleUpload_calls (env : Env σ γ) (s : Sys σ γ) :
    ∃ l : List Call, (handleUpload env s).calls = s.calls ++ l ∧
      (∀ p, Call.SaveMultipartFile p ∈ l → p = stagingPath s.unixNano) ∧
      (Call.handleUpload ∉ l) ∧
      ((∃ p, Call.SaveFinal p ∈ l) → ¬ StagingFails env s) ∧
      ((∃ fh, FormFile s.req "file" = .ok fh) →
        Call.SaveMultipartFile (stagingPath s.unixNano) ∈ l) := by
  cases hf : FormFile s.req "file" with
  | error e =>
    refine ⟨[Call.FormFile "file"], ?_, ?_, ?_, ?_, ?_⟩
    · rw [handleUpload_formFile_error env s e hf, HandleInternalServerError_calls]
      rfl
    · simp
    · simp
    · simp
    · simp
  | ok fh =>
    cases hs : env.SaveMultipartFile s.store fh (stagingPath s.unixNano) with
    | mk r st =>
      cases r with
      | some e =>
        refine ⟨[Call.FormFile "file", Call.SaveMultipartFile (stagingPath s.unixNano)],
          ?_, ?_, ?_, ?_, ?_⟩
        · rw [handleUpload_save_error env s fh e st hf hs, HandleInternalServerError_calls]
          simp [Sys.record]
        · simp
        · simp
        · simp
        · simp
      | none =>
        cases hc : env.SaveFinal st (stagingPath s.unixNano) with
        | mk r' st' =>
          have hns : ¬ StagingFails env s := by
            rintro (⟨e, he⟩ | ⟨fh', e, st'', hf', hs'⟩)
            · rw [hf] at he
              cases he
            · rw [hf] at hf'
              cases hf'
              rw [hs] at hs'
              cases hs'
          cases r' with
          | error e =>
            refine ⟨[Call.FormFile "file", Call.SaveMultipartFile (stagingPath s.unixNano),
              Call.SaveFinal (stagingPath s.unixNano)], ?_, ?_, ?_, ?_, ?_⟩
            · rw [handleUpload_convert_error env s fh e st st' hf hs hc,
                HandleInternalServerError_calls]
              simp [Sys.record]
            · simp
            · simp
            · exact fun _ => hns
            · simp
          | ok h =>
            refine ⟨[Call.FormFile "file", Call.SaveMultipartFile (stagingPath s.unixNano),
              Call.SaveFinal (stagingPath s.unixNano), Call.AppendIfMissing h,
              Call.LoadGalleryCache], ?_, ?_, ?_, ?_, ?_⟩
            · rw [handleUpload_created env s fh h st st' hf hs hc]
              simp
            · simp
            · simp
            · exact fun _ => hns
            · simp

/-! ## Lemmas: the handlers do not read the cookies or the user table -/

theorem HandleInternalServerError_withSession (s : Sys σ γ) (e : String)
    (cookies : Args) (db : List User) :
    HandleInternalServerError (withSession s cookies db) e =
      withSession (HandleInternalServerError s e) cookies db := by
  unfold HandleInternalServerError HandleGeneric
  split <;> rfl

theorem handleUpload_withSession (env : Env σ γ) (name : String) (s : Sys σ γ)
    (cookies : Args) (db : List User) :
    handleUpload { env with cookieName := name } (withSession s cookies db) =
      withSession (handleUpload env s) cookies db := by
  cases hf : FormFile s.req "file" with
  | error e =>
    have hf' : FormFile (withSession s cookies db).req "file" = .error e := hf
    rw [handleUpload_formFile_error env s e hf, handleUpload_formFile_error _ _ e hf']
    unfold HandleInternalServerError HandleGeneric
    split <;> rfl
  | ok fh =>
    have hf' : FormFile (withSession s cookies db).req "file" = .ok fh := hf
    cases hs : env.SaveMultipartFile s.store fh (stagingPath s.unixNano) with
    | mk r st =>
      cases r with
      | some e =>
        rw [handleUpload_save_error env s fh e st hf hs,
          handleUpload_save_error { env with cookieName := name } (withSession s cookies db)
            fh e st hf' hs]
        unfold HandleInternalServerError HandleGeneric
        split <;> rfl
      | none =>
        cases hc : env.SaveFinal st (stagingPath s.unixNano) with
        | mk r' st' =>
          cases r' with
          | error e =>
            rw [handleUpload_convert_error env s fh e st st' hf hs hc,
              handleUpload_convert_error { env with cookieName := name }
                (withSession s cookies db) fh e st st' hf' hs hc]
            unfold HandleInternalServerError HandleGeneric
            split <;> rfl
          | ok h =>
            rw [handleUpload_created env s fh h st st' hf hs hc,
              handleUpload_created { env with cookieName := name }
                (withSession s cookies db) fh h st st' hf' hs hc]
            rfl

theorem HandleApi_withSession (env : Env σ γ) (name : String) (s : Sys σ γ)
    (cookies : Args) (db : List User) :
    HandleApi { env with cookieName := name } (withSession s cookies db) =
      withSession (HandleApi env s) cookies db := by
  have hpost : IsPost (withSession s cookies db).req = IsPost s.req := rfl
  have hflag : (withSession s cookies db).allowUpload = s.allowUpload := rfl
  have hpath : (withSession s cookies db).req.path = s.req.path := rfl
  unfold HandleApi
  rw [hpost, hflag, hpath]
  by_cases hp : IsPost s.req = true
  · by_cases ha : s.allowUpload = true
    · by_cases hu : s.req.path = uploadPath
      · simp only [hp, ha, hu, Bool.not_true, Bool.false_eq_true, if_false, bne_self_eq_false,
          if_true]
        exact handleUpload_withSession env name (s.record Call.handleUpload) cookies db
      · simp only [hp, ha, hu, Bool.not_true, Bool.false_eq_true, if_false, bne_self_eq_false]
    · have ha' : s.allowUpload = false := by simpa using ha
      simp only [hp, ha', Bool.not_true, Bool.false_eq_true, if_false]
      rfl
  · have hp' : IsPost s.req = false := by simpa using hp
    simp only [hp', Bool.not_false, if_true]
    rfl

theorem HandleApi_calls_handleUpload_iff (env : Env σ γ) (s : Sys σ γ) :
    Call.handleUpload ∈ callsSince s (HandleApi env s) ↔
      IsPost s.req = true ∧ s.allowUpload = true ∧ s.req.path = uploadPath := by
  by_cases hp : IsPost s.req = true
  · by_cases ha : s.allowUpload = true
    · by_cases hu : s.req.path = uploadPath
      · have hr : HandleApi env s = handleUpload env (s.record Call.handleUpload) := by
          simp [HandleApi, hp, ha, hu]
        obtain ⟨l, hl, _⟩ := handleUpload_calls env (s.record Call.handleUpload)
        have hcalls : (HandleApi env s).calls = s.calls ++ (Call.handleUpload :: l) := by
          rw [hr, hl]
          simp [Sys.record]
        rw [callsSince_append s _ _ hcalls]
        simp [hp, ha, hu]
      · have hr : HandleApi env s = s := by
          simp [HandleApi, hp, ha, hu]
        rw [hr]
        simp [callsSince, hu]
    · have ha' : s.allowUpload = false := by simpa using ha
      simp [HandleApi, hp, ha', HandleForbidden, callsSince]
  · have hp' : IsPost s.req = false := by simpa using hp
    simp [HandleApi, hp', HandleGeneric, callsSince]

/-! ## Claims -/

/-- C1: when an upload succeeds with identifier `h` and a later upload, starting
from the existence cache the first one left, succeeds with `h` again, the
cache after the second upload is the cache after the first: same list, same
size, `h` not added again. -/
theorem c1_reupload_keeps_imageCache (env : Env σ γ) (s s' : Sys σ γ) (h : String)
    (h1 : Succeeds env s h)
    (hnext : s'.imageCache = (handleUpload env s).imageCache)
    (h2 : Succeeds env s' h) :
    (handleUpload env s').imageCache = (handleUpload env s).imageCache ∧
    (handleUpload env s').imageCache.length = (handleUpload env s).imageCache.length ∧
    (handleUpload env s').imageCache.count h = (handleUpload env s).imageCache.count h := by
  obtain ⟨fh, st, st', hf, hs, hc⟩ := h1
  obtain ⟨fh2, st2, st2', hf2, hs2, hc2⟩ := h2
  have e1 : (handleUpload env s).imageCache = AppendIfMissing s.imageCache h := by
    rw [handleUpload_created env s fh h st st' hf hs hc]
  have e2 : (handleUpload env s').imageCache = AppendIfMissing s'.imageCache h := by
    rw [handleUpload_created env s' fh2 h st2 st2' hf2 hs2 hc2]
  have hmem : h ∈ s'.imageCache := by
    rw [hnext, e1]
    exact AppendIfMissing_mem _ _
  have heq : (handleUpload env s').imageCache = (handleUpload env s).imageCache := by
    rw [e2, AppendIfMissing_of_mem _ _ hmem, hnext]
  exact ⟨heq, by rw [heq], by rw [heq]⟩

/-- Uploading `cat.png` twice: the cache holds it once after each upload. -/
theorem c1_reupload_keeps_imageCache_witness :
    Succeeds demoEnv firstUpload "cat.png" ∧
    Succeeds demoEnv secondUpload "cat.png" ∧
    (handleUpload demoEnv firstUpload).imageCache = ["cat.png"] ∧
    (handleUpload demoEnv secondUpload).imageCache =
      (handleUpload demoEnv firstUpload).imageCache :=
  ⟨⟨_, _, _, rfl, rfl, rfl⟩, ⟨_, _, _, rfl, rfl, rfl⟩, by decide,
    (c1_reupload_keeps_imageCache demoEnv firstUpload secondUpload "cat.png"
      ⟨_, _, _, rfl, rfl, rfl⟩ rfl ⟨_, _, _, rfl, rfl, rfl⟩).1⟩

/-- C2: when `handleUpload` fails at staging or at conversion, `imageCache` and
`galleryCache` are what they were before the call, and when staging fails
`SaveFinal` is not called. -/
theorem c2_failure_leaves_caches (env : Env σ γ) (s : Sys σ γ)
    (hfail : StagingFails env s ∨ ConversionFails env s) :
    (handleUpload env s).imageCache = s.imageCache ∧
    (handleUpload env s).galleryCache = s.galleryCache ∧
    (StagingFails env s → ∀ p, Call.SaveFinal p ∉ callsSince s (handleUpload env s)) := by
  have hcalls : StagingFails env s →
      ∀ p, Call.SaveFinal p ∉ callsSince s (handleUpload env s) := by
    intro hst p hp
    obtain ⟨l, hl, _, _, hsf, _⟩ := handleUpload_calls env s
    rw [callsSince_append s _ l hl] at hp
    exact hsf ⟨p, hp⟩ hst
  refine ⟨?_, ?_, hcalls⟩
  · rcases hfail with (⟨e, hf⟩ | ⟨fh, e, st, hf, hs⟩) | ⟨fh, st, e, st', hf, hs, hc⟩
    · rw [handleUpload_formFile_error env s e hf, HandleInternalServerError_imageCache]
      rfl
    · rw [handleUpload_save_error env s fh e st hf hs, HandleInternalServerError_imageCache]
      rfl
    · rw [handleUpload_convert_error env s fh e st st' hf hs hc,
        HandleInternalServerError_imageCache]
      rfl
  · rcases hfail with (⟨e, hf⟩ | ⟨fh, e, st, hf, hs⟩) | ⟨fh, st, e, st', hf, hs, hc⟩
    · rw [handleUpload_formFile_error env s e hf, HandleInternalServerError_galleryCache]
      rfl
    · rw [handleUpload_save_error env s fh e st hf hs,
        HandleInternalServerError_galleryCache]
      rfl
    · rw [handleUpload_convert_error env s fh e st st' hf hs hc,
        HandleInternalServerError_galleryCache]
      rfl

/-- A form without a `file` part and a text file both leave the caches as they were. -/
theorem c2_failure_leaves_caches_witness :
    StagingFails demoEnv stagingFailure ∧
    ConversionFails demoEnv conversionFailure ∧
    (handleUpload demoEnv stagingFailure).imageCache = ["dog.png"] ∧
    Call.SaveFinal "www/content/tmp/21" ∉
      callsSince stagingFailure (handleUpload demoEnv stagingFailure) ∧
    (handleUpload demoEnv conversionFailure).imageCache = ["dog.png"] ∧
    (handleUpload demoEnv conversionFailure).galleryCache = ["dog.png"] :=
  ⟨Or.inl ⟨_, rfl⟩, ⟨_, _, _, _, rfl, rfl, rfl⟩,
    (c2_failure_leaves_caches demoEnv stagingFailure (Or.inl (Or.inl ⟨_, rfl⟩))).1,
    (c2_failure_leaves_caches demoEnv stagingFailure (Or.inl (Or.inl ⟨_, rfl⟩))).2.2
      (Or.inl ⟨_, rfl⟩) "www/content/tmp/21",
    (c2_failure_leaves_caches demoEnv conversionFailure
      (Or.inr ⟨_, _, _, _, rfl, rfl, rfl⟩)).1,
    (c2_failure_leaves_caches demoEnv conversionFailure
      (Or.inr ⟨_, _, _, _, rfl, rfl, rfl⟩)).2.1⟩

/-- C3 as stated fails: a POST to /api/upload with uploads enabled and no cookie
has no valid session, and `HandleApi` still runs the whole pipeline: it answers
201, calls `handleUpload` and `SaveFinal`, and both caches change. -/
theorem c3_anonymous_upload_is_ingested :
    ¬ ValidSession demoEnv anonymousUpload ∧
    (GetUserStatus demoEnv anonymousUpload).1.1 = 401 ∧
    (HandleApi demoEnv anonymousUpload).resp.statusCode = 201 ∧
    Call.handleUpload ∈ callsSince anonymousUpload (HandleApi demoEnv anonymousUpload) ∧
    Call.SaveFinal "www/content/tmp/23" ∈
      callsSince anonymousUpload (HandleApi demoEnv anonymousUpload) ∧
    (HandleApi demoEnv anonymousUpload).imageCache ≠ anonymousUpload.imageCache ∧
    (HandleApi demoEnv anonymousUpload).galleryCache ≠ anonymousUpload.galleryCache := by
  refine ⟨?_, ?_, ?_, ?_, ?_, ?_, ?_⟩ <;> decide

/-- C3, amended: `HandleApi` does not consult the session cookie: with any
other cookies, cookie name and user table it does the same to the response,
the caches, the store and the trace.  It calls `handleUpload` exactly for a
POST to /api/upload made while `allowUpload` is true; a request whose method is
not POST is answered 405 and a POST made while `allowUpload` is not true is
answered 403, both without any pipeline call and with both caches
unchanged. -/
theorem c3_gate_ignores_session (env : Env σ γ) (s : Sys σ γ) :
    (∀ (name : String) (cookies : Args) (db : List User),
      HandleApi { env with cookieName := name } (withSession s cookies db) =
        withSession (HandleApi env s) cookies db) ∧
    (Call.handleUpload ∈ callsSince s (HandleApi env s) ↔
      IsPost s.req = true ∧ s.allowUpload = true ∧ s.req.path = uploadPath) ∧
    (IsPost s.req = false →
      (HandleApi env s).resp.statusCode = 405 ∧
      callsSince s (HandleApi env s) = [] ∧
      (HandleApi env s).imageCache = s.imageCache ∧
      (HandleApi env s).galleryCache = s.galleryCache) ∧
    (IsPost s.req = true ∧ s.allowUpload = false →
      (HandleApi env s).resp.statusCode = 403 ∧
      callsSince s (HandleApi env s) = [] ∧
      (HandleApi env s).imageCache = s.imageCache ∧
      (HandleApi env s).galleryCache = s.galleryCache) ∧
    (IsPost s.req = true ∧ s.allowUpload = true ∧ s.req.path = uploadPath →
      HandleApi env s = handleUpload env (s.record Call.handleUpload)) := by
  refine ⟨fun name cookies db => HandleApi_withSession env name s cookies db,
    HandleApi_calls_handleUpload_iff env s, ?_, ?_, ?_⟩
  · intro hp
    simp [HandleApi, hp, HandleGeneric, callsSince, StatusMethodNotAllowed]
  · rintro ⟨hp, ha⟩
    simp [HandleApi, hp, ha, HandleForbidden, callsSince, StatusForbidden]
  · rintro ⟨hp, ha, hu⟩
    simp [HandleApi, hp, ha, hu]

/-- Without a cookie: 403 and no call while uploads are off; ingested while they
are on, exactly as with the cookie of a known user. -/
theorem c3_gate_ignores_session_witness :
    ¬ ValidSession demoEnv anonymousUploadFlagOff ∧
    (HandleApi demoEnv anonymousUploadFlagOff).resp.statusCode = 403 ∧
    callsSince anonymousUploadFlagOff (HandleApi demoEnv anonymousUploadFlagOff) = [] ∧
    (HandleApi demoEnv getRequest).resp.statusCode = 405 ∧
    ¬ ValidSession demoEnv anonymousUpload ∧
    HandleApi demoEnv anonymousUpload =
      handleUpload demoEnv (anonymousUpload.record Call.handleUpload) ∧
    Call.handleUpload ∈ callsSince anonymousUpload (HandleApi demoEnv anonymousUpload) ∧
    ValidSession demoEnv (withSession anonymousUpload [("session", "tok1")]
      anonymousUpload.db) ∧
    HandleApi demoEnv (withSession anonymousUpload [("session", "tok1")]
        anonymousUpload.db) =
      withSession (HandleApi demoEnv anonymousUpload) [("session", "tok1")]
        anonymousUpload.db :=
  ⟨by decide,
    ((c3_gate_ignores_session demoEnv anonymousUploadFlagOff).2.2.2.1 ⟨rfl, rfl⟩).1,
    ((c3_gate_ignores_session demoEnv anonymousUploadFlagOff).2.2.2.1 ⟨rfl, rfl⟩).2.1,
    ((c3_gate_ignores_session demoEnv getRequest).2.2.1 rfl).1,
    by decide,
    (c3_gate_ignores_session demoEnv anonymousUpload).2.2.2.2 ⟨rfl, rfl, rfl⟩,
    (c3_gate_ignores_session demoEnv anonymousUpload).2.1.mpr ⟨rfl, rfl, rfl⟩,
    by decide,
    (c3_gate_ignores_session demoEnv anonymousUpload).1 "session" [("session", "tok1")]
      anonymousUpload.db⟩

/-- C4 as stated fails: when `SaveFinal` returns an identifier with a line feed
in it, the upload is answered 201 and X-Image-Hash holds the identifier with
the line feed turned into a space, not the identifier itself. -/
theorem c4_line_break_in_identifier :
    Succeeds lineBreakEnv firstUpload "ab\ncd" ∧
    (handleUpload lineBreakEnv firstUpload).resp.statusCode = 201 ∧
    Args.lookup (handleUpload lineBreakEnv firstUpload).resp.header "X-Image-Hash" =
      some "ab cd" ∧
    Args.lookup (handleUpload lineBreakEnv firstUpload).resp.header "X-Image-Hash" ≠
      some "ab\ncd" :=
  ⟨⟨_, _, _, rfl, rfl, rfl⟩, by decide, by decide, by decide⟩

/-- C4, amended: when staging and `SaveFinal` both succeed with identifier `h`,
`handleUpload` sets the response status to 201 and the response header
X-Image-Hash to `h` with every carriage return and line feed replaced by a
space; the header is exactly `h` if and only if `h` holds neither. -/
theorem c4_created_status_and_hash (env : Env σ γ) (s : Sys σ γ) (h : String)
    (hok : Succeeds env s h) :
    (handleUpload env s).resp.statusCode = 201 ∧
    Args.lookup (handleUpload env s).resp.header "X-Image-Hash" =
      some (removeNewLines h) ∧
    (Args.lookup (handleUpload env s).resp.header "X-Image-Hash" = some h ↔
      NoLineBreak h) := by
  obtain ⟨fh, st, st', hf, hs, hc⟩ := hok
  have hl : Args.lookup (handleUpload env s).resp.header "X-Image-Hash" =
      some (removeNewLines h) := by
    rw [handleUpload_created env s fh h st st' hf hs hc]
    show Args.lookup (ResponseHeader.Set (ResponseHeader.Set s.resp.header "X-Image-Hash" h)
      "X-Server-Message" "Created") "X-Image-Hash" = some (removeNewLines h)
    rw [ResponseHeader.lookup_Set_other _ _ _ _ (by decide),
      ResponseHeader.lookup_Set_same]
  refine ⟨?_, hl, ?_⟩
  · rw [handleUpload_created env s fh h st st' hf hs hc]
    rfl
  · rw [hl]
    exact some_removeNewLines_eq_iff h

/-- The first upload of `cat.png` answers 201 with its identifier, which holds
no line break, in X-Image-Hash. -/
theorem c4_created_status_and_hash_witness :
    Succeeds demoEnv firstUpload "cat.png" ∧
    (handleUpload demoEnv firstUpload).resp.statusCode = 201 ∧
    Args.lookup (handleUpload demoEnv firstUpload).resp.header "X-Image-Hash" =
      some "cat.png" :=
  ⟨⟨_, _, _, rfl, rfl, rfl⟩,
    (c4_created_status_and_hash demoEnv firstUpload "cat.png" ⟨_, _, _, rfl, rfl, rfl⟩).1,
    (c4_created_status_and_hash demoEnv firstUpload "cat.png"
      ⟨_, _, _, rfl, rfl, rfl⟩).2.2.mpr ⟨by decide, by decide⟩⟩

/-- C5: on every successful upload, whether or not the identifier was already in
`imageCache`, `handleUpload` calls `LoadGalleryCache` and replaces
`galleryCache` with its result on the storage `SaveFinal` left; starting from
any other `imageCache` and `galleryCache` gives the same new value. -/
theorem c5_gallery_rebuilt (env : Env σ γ) (s : Sys σ γ) (h : String)
    (hok : Succeeds env s h) :
    (handleUpload env s).galleryCache = LoadGalleryCache env (handleUpload env s).store ∧
    Call.LoadGalleryCache ∈ callsSince s (handleUpload env s) ∧
    (∀ (ic : List String) (gc : γ),
      (handleUpload env { s with imageCache := ic, galleryCache := gc }).galleryCache =
        (handleUpload env s).galleryCache) := by
  obtain ⟨fh, st, st', hf, hs, hc⟩ := hok
  refine ⟨?_, ?_, ?_⟩
  · rw [handleUpload_created env s fh h st st' hf hs hc]
  · rw [callsSince_append s _
      [Call.FormFile "file", Call.SaveMultipartFile (stagingPath s.unixNano),
        Call.SaveFinal (stagingPath s.unixNano), Call.AppendIfMissing h,
        Call.LoadGalleryCache] (by
      rw [handleUpload_created env s fh h st st' hf hs hc]
      simp)]
    simp
  · intro ic gc
    rw [handleUpload_created env s fh h st st' hf hs hc,
      handleUpload_created env { s with imageCache := ic, galleryCache := gc } fh h st st'
        hf hs hc]

/-- The repeated upload of `cat.png` rebuilds the gallery from storage. -/
theorem c5_gallery_rebuilt_witness :
    Succeeds demoEnv secondUpload "cat.png" ∧
    "cat.png" ∈ secondUpload.imageCache ∧
    (handleUpload demoEnv secondUpload).galleryCache = ["www/content/cat.png"] ∧
    (handleUpload demoEnv secondUpload).galleryCache =
      LoadGalleryCache demoEnv (handleUpload demoEnv secondUpload).store :=
  ⟨⟨_, _, _, rfl, rfl, rfl⟩, by decide, by decide,
    (c5_gallery_rebuilt demoEnv secondUpload "cat.png" ⟨_, _, _, rfl, rfl, rfl⟩).1⟩

/-- C6 as stated fails: for a method that holds a carriage return, `HandleApi`
answers 405 and X-Server-Message holds the message with the carriage return
turned into a space, not "Cannot <METHOD> on /api/" itself. -/
theorem c6_line_break_in_method :
    IsPost crMethodRequest.req = false ∧
    crMethodRequest.req.method = "GE\rT" ∧
    (HandleApi demoEnv crMethodRequest).resp.statusCode = 405 ∧
    Args.lookup (HandleApi demoEnv crMethodRequest).resp.header "X-Server-Message" =
      some "Cannot GE T on /api/" ∧
    Args.lookup (HandleApi demoEnv crMethodRequest).resp.header "X-Server-Message" ≠
      some ("Cannot " ++ crMethodRequest.req.method ++ " on /api/") := by
  refine ⟨?_, ?_, ?_, ?_, ?_⟩ <;> decide

/-- C6, amended: for a request whose method is not POST, whatever the upload
flag and the path, `HandleApi` sets status 405 and X-Server-Message to
"Cannot <METHOD> on /api/" with every carriage return and line feed replaced
by a space, which is the message itself if and only if the method holds
neither, and makes no pipeline call, `handleUpload` included. -/
theorem c6_method_not_allowed (env : Env σ γ) (s : Sys σ γ)
    (hm : IsPost s.req = false) :
    (HandleApi env s).resp.statusCode = 405 ∧
    Args.lookup (HandleApi env s).resp.header "X-Server-Message" =
      some (removeNewLines ("Cannot " ++ s.req.method ++ " on /api/")) ∧
    (Args.lookup (HandleApi env s).resp.header "X-Server-Message" =
      some ("Cannot " ++ s.req.method ++ " on /api/") ↔ NoLineBreak s.req.method) ∧
    callsSince s (HandleApi env s) = [] ∧
    Call.handleUpload ∉ callsSince s (HandleApi env s) := by
  have hr : HandleApi env s =
      HandleGeneric s StatusMethodNotAllowed ("Cannot " ++ s.req.method ++ " on /api/") := by
    simp [HandleApi, hm]
  have hl : Args.lookup (HandleApi env s).resp.header "X-Server-Message" =
      some (removeNewLines ("Cannot " ++ s.req.method ++ " on /api/")) := by
    rw [hr]
    exact ResponseHeader.lookup_Set_same _ _ _
  refine ⟨?_, hl, ?_, ?_, ?_⟩
  · rw [hr]
    rfl
  · rw [hl, some_removeNewLines_eq_iff, NoLineBreak_append, NoLineBreak_append]
    have h1 : NoLineBreak "Cannot " := ⟨by decide, by decide⟩
    have h2 : NoLineBreak " on /api/" := ⟨by decide, by decide⟩
    tauto
  · rw [hr]
    simp [HandleGeneric, callsSince]
  · rw [hr]
    simp [HandleGeneric, callsSince]

/-- A GET is answered with 405 and the message naming the method. -/
theorem c6_method_not_allowed_witness :
    IsPost getRequest.req = false ∧
    (HandleApi demoEnv getRequest).resp.statusCode = 405 ∧
    Args.lookup (HandleApi demoEnv getRequest).resp.header "X-Server-Message" =
      some "Cannot GET on /api/" ∧
    callsSince getRequest (HandleApi demoEnv getRequest) = [] :=
  ⟨rfl, (c6_method_not_allowed demoEnv getRequest rfl).1,
    (c6_method_not_allowed demoEnv getRequest rfl).2.2.1.mpr ⟨by decide, by decide⟩,
    (c6_method_not_allowed demoEnv getRequest rfl).2.2.2.1⟩

/-- C7: for a POST made while `allowUpload` is not true, whatever the path,
`HandleApi` sets status 403 and X-Server-Message to "403 Forbidden" and makes
no pipeline call, `handleUpload` included. -/
theorem c7_upload_flag_off (env : Env σ γ) (s : Sys σ γ)
    (hm : IsPost s.req = true) (hflag : s.allowUpload ≠ true) :
    (HandleApi env s).resp.statusCode = 403 ∧
    Args.lookup (HandleApi env s).resp.header "X-Server-Message" = some "403 Forbidden" ∧
    callsSince s (HandleApi env s) = [] ∧
    Call.handleUpload ∉ callsSince s (HandleApi env s) := by
  have ha : s.allowUpload = false := by simpa using hflag
  have hr : HandleApi env s = HandleForbidden s := by
    simp [HandleApi, hm, ha]
  rw [hr]
  refine ⟨rfl, ?_, ?_, ?_⟩
  · exact ResponseHeader.lookup_Set_same _ _ _
  · simp [HandleForbidden, callsSince]
  · simp [HandleForbidden, callsSince]

/-- A POST while uploads are off is answered with 403. -/
theorem c7_upload_flag_off_witness :
    IsPost anonymousUploadFlagOff.req = true ∧
    anonymousUploadFlagOff.allowUpload ≠ true ∧
    (HandleApi demoEnv anonymousUploadFlagOff).resp.statusCode = 403 ∧
    Args.lookup (HandleApi demoEnv anonymousUploadFlagOff).resp.header "X-Server-Message" =
      some "403 Forbidden" :=
  ⟨rfl, by decide, (c7_upload_flag_off demoEnv anonymousUploadFlagOff rfl (by decide)).1,
    (c7_upload_flag_off demoEnv anonymousUploadFlagOff rfl (by decide)).2.1⟩

/-- C8: `GetUserStatus` returns 401 "Not logged in!" exactly when the session
cookie is absent or empty, 403 "Invalid Cookie" exactly when it is non-empty
and `GetUser` finds no user with that state, 200 "Logged In" exactly when it
is non-empty and a user is found; one of the three is returned, and no two of
them together. -/
theorem c8_GetUserStatus_cases (env : Env σ γ) (s : Sys σ γ) :
    ((GetUserStatus env s).1 = (401, "Not logged in!") ↔
      Args.Peek s.req.cookies env.cookieName = "") ∧
    ((GetUserStatus env s).1 = (403, "Invalid Cookie") ↔
      Args.Peek s.req.cookies env.cookieName ≠ "" ∧
      (GetUser s (Args.Peek s.req.cookies env.cookieName)).1 = none) ∧
    ((GetUserStatus env s).1 = (200, "Logged In") ↔
      Args.Peek s.req.cookies env.cookieName ≠ "" ∧
      ∃ u, (GetUser s (Args.Peek s.req.cookies env.cookieName)).1 = some u) ∧
    ((GetUserStatus env s).1 = (401, "Not logged in!") ∨
      (GetUserStatus env s).1 = (403, "Invalid Cookie") ∨
      (GetUserStatus env s).1 = (200, "Logged In")) ∧
    (Args.Peek s.req.cookies env.cookieName = "" ↔
      Args.lookup s.req.cookies env.cookieName = none ∨
      Args.lookup s.req.cookies env.cookieName = some "") ∧
    (∀ c, (GetUser s c).1 = none ↔ ∀ u ∈ s.db, u.State ≠ c) := by
  have hlen : (Args.Peek s.req.cookies env.cookieName).length = 0 ↔
      Args.Peek s.req.cookies env.cookieName = "" := String.length_zero_iff _
  refine ⟨?_, ?_, ?_, ?_, ?_, ?_⟩
  · unfold GetUserStatus
    by_cases hc : Args.Peek s.req.cookies env.cookieName = ""
    · simp [hc, StatusUnauthorized]
    · have hl := mt hlen.mp hc
      simp only [hl, if_false, hc, iff_false]
      cases hg : GetUser s (Args.Peek s.req.cookies env.cookieName) with
      | mk r s' => cases r <;> simp [StatusForbidden]
  · unfold GetUserStatus
    by_cases hc : Args.Peek s.req.cookies env.cookieName = ""
    · simp [hc, StatusUnauthorized]
    · have hl := mt hlen.mp hc
      simp only [hl, if_false, hc, ne_eq, not_false_eq_true, true_and]
      cases hg : GetUser s (Args.Peek s.req.cookies env.cookieName) with
      | mk r s' => cases r <;> simp [StatusForbidden]
  · unfold GetUserStatus
    by_cases hc : Args.Peek s.req.cookies env.cookieName = ""
    · simp [hc, StatusUnauthorized]
    · have hl := mt hlen.mp hc
      simp only [hl, if_false, hc, ne_eq, not_false_eq_true, true_and]
      cases hg : GetUser s (Args.Peek s.req.cookies env.cookieName) with
      | mk r s' => cases r <;> simp [StatusForbidden]
  · unfold GetUserStatus
    by_cases hc : Args.Peek s.req.cookies env.cookieName = ""
    · simp [hc, StatusUnauthorized]
    · have hl := mt hlen.mp hc
      simp only [hl, if_false]
      cases hg : GetUser s (Args.Peek s.req.cookies env.cookieName) with
      | mk r s' => cases r <;> simp [StatusForbidden]
  · unfold Args.Peek
    cases Args.lookup s.req.cookies env.cookieName with
    | none => simp
    | some v =>
      simp only [Option.getD_some, Option.some.injEq, false_or, reduceCtorEq]
  · intro c
    unfold GetUser selectByState
    cases hfind : List.find? (fun u => u.State == c) s.db with
    | none =>
      simp only [hfind, true_iff]
      intro u hu
      have := List.find?_eq_none.mp hfind u hu
      simpa using this
    | some u =>
      simp only [hfind, false_iff, reduceCtorEq]
      intro hall
      have hmem := List.mem_of_find?_eq_some hfind
      have hst := List.find?_some hfind
      exact hall u hmem (by simpa using hst)

/-- C9 as stated fails: for an error whose message holds a line feed,
`HandleInternalServerError` answers 500 and X-Server-Message holds "500 " and
the message with the line feed turned into a space, not "500 " followed by the
message itself. -/
theorem c9_line_break_in_message :
    HasSuffix "line1\nline2" "no such file or directory" = false ∧
    (HandleInternalServerError firstUpload "line1\nline2").resp.statusCode = 500 ∧
    Args.lookup (HandleInternalServerError firstUpload "line1\nline2").resp.header
      "X-Server-Message" = some "500 line1 line2" ∧
    Args.lookup (HandleInternalServerError firstUpload "line1\nline2").resp.header
      "X-Server-Message" ≠ some ("500 " ++ "line1\nline2") := by
  refine ⟨?_, ?_, ?_, ?_⟩ <;> decide

/-- C9, amended: `HandleInternalServerError` sets status 404 with X-Server-Message
"Not Found" exactly when the error message ends with
"no such file or directory"; otherwise it sets status 500 with
X-Server-Message "500 " followed by the message, every carriage return and
line feed of which is replaced by a space, so that the header is "500 "
followed by the message itself exactly when the message holds neither. -/
theorem c9_internal_error_mapping (s : Sys σ γ) (e : String) :
    (((HandleInternalServerError s e).resp.statusCode = 404 ∧
      Args.lookup (HandleInternalServerError s e).resp.header "X-Server-Message" =
        some "Not Found") ↔
      ∃ front : String, e = front ++ "no such file or directory") ∧
    (((HandleInternalServerError s e).resp.statusCode = 500 ∧
      Args.lookup (HandleInternalServerError s e).resp.header "X-Server-Message" =
        some (removeNewLines ("500 " ++ e))) ↔
      ¬ ∃ front : String, e = front ++ "no such file or directory") ∧
    (((HandleInternalServerError s e).resp.statusCode = 500 ∧
      Args.lookup (HandleInternalServerError s e).resp.header "X-Server-Message" =
        some ("500 " ++ e)) ↔
      (¬ ∃ front : String, e = front ++ "no such file or directory") ∧ NoLineBreak e) := by
  have hclean : removeNewLines ("500 " ++ e) = "500 " ++ e ↔ NoLineBreak e := by
    rw [removeNewLines_eq_self_iff, NoLineBreak_append]
    have h1 : NoLineBreak "500 " := ⟨by decide, by decide⟩
    tauto
  rw [← HasSuffix_iff]
  by_cases hs : HasSuffix e "no such file or directory" = true
  · have hr : HandleInternalServerError s e = HandleGeneric s StatusNotFound "Not Found" := by
      simp [HandleInternalServerError, hs]
    have hstatus : (HandleInternalServerError s e).resp.statusCode = 404 := by
      rw [hr]
      rfl
    have hhead : Args.lookup (HandleInternalServerError s e).resp.header
        "X-Server-Message" = some "Not Found" := by
      rw [hr]
      exact ResponseHeader.lookup_Set_same _ _ _
    refine ⟨?_, ?_, ?_⟩
    · simp [hs, hstatus, hhead]
    · simp [hs, hstatus]
    · simp [hs, hstatus]
  · have hstatus : (HandleInternalServerError s e).resp.statusCode = 500 := by
      simp [HandleInternalServerError, hs, StatusInternalServerError]
    have hhead : Args.lookup (HandleInternalServerError s e).resp.header
        "X-Server-Message" = some (removeNewLines ("500 " ++ e)) := by
      simp only [HandleInternalServerError, hs, Bool.false_eq_true, if_false]
      exact ResponseHeader.lookup_Set_same _ _ _
    refine ⟨?_, ?_, ?_⟩
    · simp [hs, hstatus]
    · simp [hs, hstatus, hhead]
    · rw [hhead, Option.some.injEq, hclean]
      simp [hs, hstatus]

/-- C10 as stated fails: two different upload attempts that read the same clock
value stage to the same temporary path. -/
theorem c10_same_clock_same_path :
    attemptA.req.multipartForm.toOption ≠ attemptB.req.multipartForm.toOption ∧
    attemptA.unixNano = attemptB.unixNano ∧
    Call.SaveMultipartFile "www/content/tmp/1700000000000000000" ∈
      callsSince attemptA (handleUpload demoEnv attemptA) ∧
    Call.SaveMultipartFile "www/content/tmp/1700000000000000000" ∈
      callsSince attemptB (handleUpload demoEnv attemptB) := by
  refine ⟨?_, ?_, ?_, ?_⟩ <;> decide

/-- C10, amended: the path an upload attempt stages to is "www/content/tmp/"
followed by the decimal rendering of its clock reading, and the paths of two
attempts differ exactly when their clock readings differ. -/
theorem c10_paths_differ_iff_clocks_differ (env : Env σ γ) (s t : Sys σ γ)
    (p q : String)
    (hp : Call.SaveMultipartFile p ∈ callsSince s (handleUpload env s))
    (hq : Call.SaveMultipartFile q ∈ callsSince t (handleUpload env t)) :
    p = "www/content/tmp/" ++ FormatInt s.unixNano ∧
    q = "www/content/tmp/" ++ FormatInt t.unixNano ∧
    (p ≠ q ↔ s.unixNano ≠ t.unixNano) := by
  obtain ⟨l, hl, hpath, _, _, _⟩ := handleUpload_calls env s
  obtain ⟨l', hl', hpath', _, _, _⟩ := handleUpload_calls env t
  rw [callsSince_append s _ l hl] at hp
  rw [callsSince_append t _ l' hl'] at hq
  have ep := hpath p hp
  have eq := hpath' q hq
  refine ⟨ep, eq, ?_⟩
  rw [ep, eq]
  constructor
  · intro hne hclock
    exact hne (by rw [hclock])
  · intro hne hpq
    exact hne (stagingPath_injective _ _ hpq)

/-- Clock readings 17 and 18 give two different staging paths. -/
theorem c10_paths_differ_iff_clocks_differ_witness :
    Call.SaveMultipartFile "www/content/tmp/17" ∈
      callsSince firstUpload (handleUpload demoEnv firstUpload) ∧
    Call.SaveMultipartFile "www/content/tmp/18" ∈
      callsSince secondUpload (handleUpload demoEnv secondUpload) ∧
    ("www/content/tmp/17" ≠ "www/content/tmp/18" ↔
      firstUpload.unixNano ≠ secondUpload.unixNano) :=
  ⟨by decide, by decide,
    (c10_paths_differ_iff_clocks_differ demoEnv firstUpload secondUpload
      "www/content/tmp/17" "www/content/tmp/18" (by decide) (by decide)).2.2⟩

end Srp
